import Mathlib

/-!
Verification of the content-negotiation component in
`examples/account/gen/transport/encoding_http.go`.

Go strings are byte strings, so headers, media types and response bodies are
modelled as lists of byte values (`GoStr`).  The media-type parser used by the
code (`mime.ParseMediaType` from the Go standard library) is embedded
faithfully below at the byte level, including its Unicode-aware pieces:

* `strings.TrimSpace` and `strings.TrimLeftFunc(v, unicode.IsSpace)` decode
  UTF-8 runes and trim those with the Unicode White_Space property
  (ASCII 9-13 and 32, U+0085, U+00A0, U+1680, U+2000-U+200A, U+2028, U+2029,
  U+202F, U+205F, U+3000).  The embedding trims exactly the UTF-8 byte
  sequences of these runes.  This is byte-faithful: a UTF-8 encoding is
  determined by its bytes, the length of a sequence by its first byte, and an
  ill-formed sequence decodes to U+FFFD (not white space) with width one, so
  Go trims a prefix (suffix) exactly when it is one of those byte sequences.
  For the suffix direction, Go's DecodeLastRune scans back over continuation
  bytes (0x80-0xBF) to the nearest start byte and re-checks that the decode
  ends at the end of the string; every interior byte of the listed sequences
  is a continuation byte and every first byte is a start byte, so its cut
  coincides with matching the reversed sequences.
* `strings.ToLower` lowercases runes.  On the bytes the media-type grammar
  can accept (ASCII) this is the A-Z shift; the only code points above ASCII
  whose lowercase is an ASCII byte are U+0130 (to i) and U+212A (to k), and
  the embedding maps exactly their UTF-8 sequences.  Every other non-ASCII
  rune stays non-ASCII under ToLower (and U+FFFD substitution for ill-formed
  input), i.e. stays outside the token alphabet and outside white space, so
  Go's parse succeeds exactly when the embedded one does, with the same media
  type, and fails with the raw header kept exactly when the embedded one
  does.

The framework pieces the file calls but whose code lives outside `src/`
(`rest.HTTPStatus`, `rest.NewErrorResponse`, the `rest.Encoder` interface, the
logger) are modelled from the spec, as marked on each definition.
-/

/-- Go byte strings, modelled as lists of byte values. -/
abbrev GoStr := List Nat

/-- Bytes of an ASCII string literal. -/
def goStr (s : String) : GoStr := s.data.map Char.toNat

/-- Go `mime.isTSpecial`: the RFC 1521 tspecials
`( ) < > @ , ; : \ " / [ ] ? =` as byte values. -/
def isTSpecial (c : Nat) : Bool :=
  decide (c = 40 ∨ c = 41 ∨ c = 60 ∨ c = 62 ∨ c = 64 ∨ c = 44 ∨ c = 59 ∨ c = 58 ∨
    c = 92 ∨ c = 34 ∨ c = 47 ∨ c = 91 ∨ c = 93 ∨ c = 63 ∨ c = 61)

/-- Go `mime.isTokenChar`: printable US-ASCII other than space and tspecials. -/
def isTokenChar (c : Nat) : Bool :=
  decide (32 < c ∧ c < 127) && !(isTSpecial c)

/-- Byte-level `strings.ToLower` on one ASCII byte. -/
def lowerByte (c : Nat) : Nat := if 65 ≤ c ∧ c ≤ 90 then c + 32 else c

/-- Worker for `strings.ToLower`: ASCII letters are shifted, the UTF-8
sequences of U+0130 (C4 B0) and U+212A (E2 84 AA) — the only code points
above ASCII that lowercase to an ASCII byte — become i and k, and all other
bytes are kept (observably equivalent to Go per the header comment; every
other rune stays outside the token and white-space alphabets).  `fuel` only
serves termination: each step consumes at least one byte, so `s.length`
steps reach the empty string, on which every fuel value agrees. -/
def toLowerAux : Nat → GoStr → GoStr
  | 0, s => s
  | fuel + 1, s =>
    match s with
    | [] => []
    | c :: r =>
      if c = 196 ∧ r.take 1 = [176] then 105 :: toLowerAux fuel (r.drop 1)
      else if c = 226 ∧ r.take 2 = [132, 170] then 107 :: toLowerAux fuel (r.drop 2)
      else lowerByte c :: toLowerAux fuel r

/-- `strings.ToLower` over a byte string. -/
def toLowerStr (s : GoStr) : GoStr := toLowerAux s.length s

/-- Length in bytes of the white-space rune at the front of `s`, 0 when the
first rune is not white space: ASCII white space (9-13, 32), then the UTF-8
sequences C2 85 (U+0085), C2 A0 (U+00A0), E1 9A 80 (U+1680),
E2 80 80..E2 80 8A (U+2000-U+200A), E2 80 A8/A9/AF (U+2028, U+2029, U+202F),
E2 81 9F (U+205F) and E3 80 80 (U+3000). -/
def spaceSeqLen (s : GoStr) : Nat :=
  match s with
  | [] => 0
  | c :: r =>
    if c = 9 ∨ c = 10 ∨ c = 11 ∨ c = 12 ∨ c = 13 ∨ c = 32 then 1
    else if c = 194 then
      match r with
      | 133 :: _ => 2
      | 160 :: _ => 2
      | _ => 0
    else if c = 225 then
      match r with
      | 154 :: 128 :: _ => 3
      | _ => 0
    else if c = 226 then
      match r with
      | 128 :: c2 :: _ =>
        if 128 ≤ c2 ∧ c2 ≤ 138 ∨ c2 = 168 ∨ c2 = 169 ∨ c2 = 175 then 3 else 0
      | 129 :: 159 :: _ => 3
      | _ => 0
    else if c = 227 then
      match r with
      | 128 :: 128 :: _ => 3
      | _ => 0
    else 0

/-- Worker for `strings.TrimLeftFunc(v, unicode.IsSpace)`: drop white-space
runes from the front.  `fuel` only serves termination (each step drops at
least one byte, so `s.length` steps suffice). -/
def trimLeftAux : Nat → GoStr → GoStr
  | 0, s => s
  | fuel + 1, s =>
    if spaceSeqLen s = 0 then s else trimLeftAux fuel (s.drop (spaceSeqLen s))

/-- `strings.TrimLeftFunc s unicode.IsSpace`. -/
def trimLeftSpace (s : GoStr) : GoStr := trimLeftAux s.length s

/-- `spaceSeqLen` for a reversed string: length of the white-space rune at
the END of the original string, matched on the reversed bytes.  Faithful to
Go's DecodeLastRune per the header comment. -/
def revSpaceSeqLen (s : GoStr) : Nat :=
  match s with
  | [] => 0
  | c :: r =>
    if c = 9 ∨ c = 10 ∨ c = 11 ∨ c = 12 ∨ c = 13 ∨ c = 32 then 1
    else if c = 133 ∨ c = 160 then
      match r with
      | 194 :: _ => 2
      | _ => 0
    else if c = 128 then
      match r with
      | 154 :: 225 :: _ => 3
      | 128 :: 227 :: _ => 3
      | 128 :: 226 :: _ => 3
      | _ => 0
    else if 129 ≤ c ∧ c ≤ 138 ∨ c = 168 ∨ c = 169 ∨ c = 175 then
      match r with
      | 128 :: 226 :: _ => 3
      | _ => 0
    else if c = 159 then
      match r with
      | 129 :: 226 :: _ => 3
      | _ => 0
    else 0

/-- Worker for right trimming on the reversed byte string. -/
def trimRightRevAux : Nat → GoStr → GoStr
  | 0, s => s
  | fuel + 1, s =>
    if revSpaceSeqLen s = 0 then s
    else trimRightRevAux fuel (s.drop (revSpaceSeqLen s))

/-- `strings.TrimRightFunc s unicode.IsSpace` on an already-reversed byte
string. -/
def trimRightSpaceRev (s : GoStr) : GoStr := trimRightRevAux s.length s

/-- `strings.TrimSpace`: trim white-space runes from both ends
(TrimFunc = TrimRightFunc after TrimLeftFunc). -/
def trimSpace (s : GoStr) : GoStr :=
  (trimRightSpaceRev (trimLeftSpace s).reverse).reverse

/-- `strings.Cut v ";"`, returning the part before the first semicolon and the
rest of the string starting at that semicolon (empty if there is none). -/
def cutSemi : GoStr → GoStr × GoStr
  | [] => ([], [])
  | c :: cs =>
    if c = 59 then ([], c :: cs)
    else
      let p := cutSemi cs
      (c :: p.1, p.2)

/-- Go `mime.consumeToken`: the longest prefix of token characters and the
remainder. -/
def consumeToken (s : GoStr) : GoStr × GoStr :=
  (s.takeWhile isTokenChar, s.dropWhile isTokenChar)

/-- Go `mime.checkMediaTypeDisposition`: `token` or `token "/" token`,
with nothing left over. -/
def checkMediaTypeDisposition (s : GoStr) : Bool :=
  let typ := s.takeWhile isTokenChar
  let rest := s.dropWhile isTokenChar
  if typ = [] then false
  else
    match rest with
    | [] => true
    | 47 :: rest1 =>
      let sub := rest1.takeWhile isTokenChar
      let rest2 := rest1.dropWhile isTokenChar
      decide (sub ≠ [] ∧ rest2 = [])
    | _ => false

/-- The quoted-string scanner inside Go `mime.consumeValue`: called after the
opening quote; returns the decoded value and the remainder after the closing
quote, or `none` where Go returns `("", v)` (bare CR/LF or a missing end
quote).  A backslash escaping a tspecial yields that byte; any other byte,
backslashes included, is copied verbatim. -/
def consumeQuotedAux : GoStr → Option (GoStr × GoStr)
  | [] => none
  | 34 :: rest => some ([], rest)
  | 92 :: c2 :: rest2 =>
    if isTSpecial c2 then (consumeQuotedAux rest2).map (fun p => (c2 :: p.1, p.2))
    else (consumeQuotedAux (c2 :: rest2)).map (fun p => (92 :: p.1, p.2))
  | c :: rest =>
    if c = 13 ∨ c = 10 then none
    else (consumeQuotedAux rest).map (fun p => (c :: p.1, p.2))

/-- Go `mime.consumeValue`: a token, or a quoted string. -/
def consumeValue (v : GoStr) : GoStr × GoStr :=
  match v with
  | [] => ([], [])
  | c :: tl =>
    if c = 34 then
      match consumeQuotedAux tl with
      | some p => p
      | none => ([], v)
    else consumeToken v

/-- Go `mime.consumeMediaParam`: consumes `; key = value` with optional white
space, lowercasing the key; returns `([], [], v)` on failure. -/
def consumeMediaParam (v : GoStr) : GoStr × GoStr × GoStr :=
  match trimLeftSpace v with
  | 59 :: rest1 =>
    let rest2 := trimLeftSpace rest1
    let param := (rest2.takeWhile isTokenChar).map lowerByte
    let rest3 := rest2.dropWhile isTokenChar
    if param = [] then ([], [], v)
    else
      match trimLeftSpace rest3 with
      | 61 :: rest5 =>
        let rest6 := trimLeftSpace rest5
        let pv := consumeValue rest6
        if pv.1 = [] ∧ pv.2 = rest6 then ([], [], v)
        else (param, pv.1, pv.2)
      | _ => ([], [], v)
  | _ => ([], [], v)

/-- First-match association-list lookup; a Go map updated by prepending. -/
def assocFind {α : Type} (k : GoStr) : List (GoStr × α) → Option α
  | [] => none
  | p :: rest => if p.1 = k then some p.2 else assocFind k rest

/-- `strings.Cut key "*"`: the part before the first star, and whether a star
occurs. -/
def cutStar (k : GoStr) : GoStr × Bool :=
  (k.takeWhile (fun c => c != 42), k.contains 42)

/-- The parameter loop of Go `mime.ParseMediaType`, reduced to the one output
the repository reads: whether the whole parameter section parses (err == nil).
Parameters go into `params`, parameters whose key carries a `*` into the
per-base-name continuation maps; a duplicate key with a different value or an
unconsumable remainder is a parse error, a lone trailing semicolon is not.
The continuation-stitching phase that follows the loop in Go cannot fail and
only shapes the parameter map, which the repository discards, so it is not
modelled.  `fuel` only serves termination: every successful iteration consumes
at least the semicolon, so `v.length + 1` steps are never exhausted. -/
def parseParamsLoop : Nat → GoStr → List (GoStr × GoStr) →
    List (GoStr × List (GoStr × GoStr)) → Bool
  | 0, _, _, _ => false
  | fuel + 1, v, params, continuation =>
    if v = [] then true
    else
      let v1 := trimLeftSpace v
      if v1 = [] then true
      else
        let kvr := consumeMediaParam v1
        let key := kvr.1
        let value := kvr.2.1
        let rest := kvr.2.2
        if key = [] then decide (trimSpace rest = [59])
        else
          if (cutStar key).2 then
            let baseName := (cutStar key).1
            let pmap := (assocFind baseName continuation).getD []
            match assocFind key pmap with
            | some v0 =>
              if v0 = value then
                parseParamsLoop fuel rest params ((baseName, (key, value) :: pmap) :: continuation)
              else false
            | none =>
              parseParamsLoop fuel rest params ((baseName, (key, value) :: pmap) :: continuation)
          else
            match assocFind key params with
            | some v0 =>
              if v0 = value then parseParamsLoop fuel rest ((key, value) :: params) continuation
              else false
            | none => parseParamsLoop fuel rest ((key, value) :: params) continuation

/-- Go `mime.ParseMediaType`, reduced to the two outputs the repository reads:
`some mediatype` when err == nil, `none` when err != nil.  The media type is
the part before the first semicolon, lowercased and trimmed; it must satisfy
the `token "/" token` grammar, and the parameter section must parse. -/
def ParseMediaType (v : GoStr) : Option GoStr :=
  let base := (cutSemi v).1
  let rest := (cutSemi v).2
  let mediatype := trimSpace (toLowerStr base)
  if checkMediaTypeDisposition mediatype then
    if parseParamsLoop (rest.length + 1) rest [] [] then some mediatype else none
  else none

/-- The three codecs the generated transport wires in. -/
inductive Codec
  | json
  | gob
  | xml
deriving DecidableEq

/-- Embeds `NewHTTPDecoder`.  The request is represented by its `Content-Type`
header value; `r.Header.Get` yields the empty string when the header is
absent.  The function is total: it returns which codec backs the decoder it
constructs over the request body, never an error. -/
def NewHTTPDecoder (contentTypeHeader : GoStr) : Codec :=
  let contentType :=
    if contentTypeHeader = [] then goStr "application/json"
    else
      match ParseMediaType contentTypeHeader with
      | some mediaType => mediaType
      | none => contentTypeHeader
  if contentType = goStr "application/json" then Codec.json
  else if contentType = goStr "application/gob" then Codec.gob
  else if contentType = goStr "application/xml" then Codec.xml
  else Codec.json

/-- Embeds `NewHTTPEncoder`.  The request is represented by its `Accept`
header value; the result is the codec backing the encoder bound to the
response writer. -/
def NewHTTPEncoder (acceptHeader : GoStr) : Codec :=
  let accept :=
    if acceptHeader = [] then goStr "application/json"
    else
      match ParseMediaType acceptHeader with
      | some mediaType => mediaType
      | none => acceptHeader
  if accept = goStr "application/json" then Codec.json
  else if accept = goStr "application/gob" then Codec.gob
  else if accept = goStr "application/xml" then Codec.xml
  else Codec.json

/-- Embeds `ResponseContentType`. -/
def ResponseContentType (acceptHeader : GoStr) : GoStr :=
  if acceptHeader = [] then goStr "application/json"
  else
    let accept :=
      match ParseMediaType acceptHeader with
      | some mediaType => mediaType
      | none => acceptHeader
    if accept = goStr "application/json" ∨ accept = goStr "application/gob" ∨
        accept = goStr "application/xml" then accept
    else goStr "application/json"

/-- The value the switch in `NewHTTPDecoder`/`NewHTTPEncoder` matches on: the
parsed media type, the raw header when parsing fails, `application/json` when
the header is absent. -/
def mediaTypeOrRaw (header : GoStr) : GoStr :=
  if header = [] then goStr "application/json"
  else
    match ParseMediaType header with
    | some mediaType => mediaType
    | none => header

/-- The switch shared by `NewHTTPDecoder` and `NewHTTPEncoder`. -/
def codecSwitch (s : GoStr) : Codec :=
  if s = goStr "application/json" then Codec.json
  else if s = goStr "application/gob" then Codec.gob
  else if s = goStr "application/xml" then Codec.xml
  else Codec.json

/-- The switch of `ResponseContentType`. -/
def rctSwitch (s : GoStr) : GoStr :=
  if s = goStr "application/json" ∨ s = goStr "application/gob" ∨
      s = goStr "application/xml" then s
  else goStr "application/json"

/-- The media type each codec is registered under. -/
def codecMediaType : Codec → GoStr
  | Codec.json => goStr "application/json"
  | Codec.gob => goStr "application/gob"
  | Codec.xml => goStr "application/xml"

/-- The structured error-response payload for classified errors.
Modelled from the spec: the `rest.ErrorResponse` struct built by
`rest.NewErrorResponse` lives in the framework, outside `src/`; the spec gives
its schema as status (int) and message (string). -/
structure ErrorResponse where
  status : Nat
  message : GoStr
deriving DecidableEq

/-- Modelled from the spec: `rest.NewErrorResponse` (framework code outside
`src/`) derives the structured error-response object from the classified
error's declared status and message. -/
def NewErrorResponse (status : Nat) (message : GoStr) : ErrorResponse :=
  { status := status, message := message }

/-- Modelled from the spec: `rest.HTTPStatus` (framework code outside `src/`)
— the HTTP status written is the status the classified error declares. -/
def HTTPStatus (status : Nat) : Nat := status

/-- The classification `errorEncoder.Encode` switches on: a `goa.Error`
carries a declared status and message; any other error only a message. -/
inductive GoaHandledError
  | classified (status : Nat) (message : GoStr)
  | unclassified (message : GoStr)

/-- The observable state of the `http.ResponseWriter`: the `Content-Type`
header set on it, the status written by `WriteHeader`, and the body bytes. -/
structure ResponseState where
  contentType : Option GoStr
  status : Option Nat
  body : GoStr
deriving DecidableEq

/-- One `logger.Error` call, as its list of key/value pairs.  Modelled from
the spec: the logger collaborator only consumes such calls. -/
abbrev LogEvent := List (GoStr × GoStr)

/-- Alphabet of Go `base64.RawURLEncoding` (URL-safe, no padding). -/
def base64URLAlphabet : GoStr :=
  goStr "ABCDEFGHIJKLMNOPQRSTUVWXYZabcdefghijklmnopqrstuvwxyz0123456789-_"

/-- One output byte of Go base64 encoding (six input bits). -/
def base64URLByte (n : Nat) : Nat := base64URLAlphabet.getD n 65

/-- Go `base64.RawURLEncoding.EncodeToString`: three input bytes become four
alphabet bytes, a final partial group is encoded without padding.  Input
values are taken mod 256 as Go bytes. -/
def base64RawURLEncode : GoStr → GoStr
  | b0 :: b1 :: b2 :: rest =>
    let n0 := b0 % 256
    let n1 := b1 % 256
    let n2 := b2 % 256
    base64URLByte (n0 / 4) :: base64URLByte (n0 % 4 * 16 + n1 / 16) ::
      base64URLByte (n1 % 16 * 4 + n2 / 64) :: base64URLByte (n2 % 64) ::
      base64RawURLEncode rest
  | [b0, b1] =>
    let n0 := b0 % 256
    let n1 := b1 % 256
    [base64URLByte (n0 / 4), base64URLByte (n0 % 4 * 16 + n1 / 16),
      base64URLByte (n1 % 16 * 4)]
  | [b0] =>
    let n0 := b0 % 256
    [base64URLByte (n0 / 4), base64URLByte (n0 % 4 * 16)]
  | [] => []

namespace errorEncoder

/-- Embeds `errorEncoder.Encode`.  The response writer and logger are
represented by the returned `ResponseState` and list of `logger.Error` calls.
`acceptHeader` is the request's `Accept` header, read by
`ResponseContentType`; `encoderEncode` is the `Encode` method of the bound
`rest.Encoder` (an interface whose implementations live outside `src/`),
modelled from the spec as yielding either the bytes it writes to the response
or an error; `randBytes` are the six bytes `io.ReadFull(rand.Reader, b)`
places in `b`.  As in the code, the result of `w.Write` is discarded and the
unclassified branch logs unconditionally. -/
def Encode (acceptHeader : GoStr)
    (encoderEncode : ErrorResponse → Except GoStr GoStr)
    (randBytes : Fin 6 → Nat)
    (handled : GoaHandledError) : ResponseState × List LogEvent :=
  match handled with
  | GoaHandledError.classified status message =>
    let resp : ResponseState :=
      { contentType := some (ResponseContentType acceptHeader)
        status := some (HTTPStatus status)
        body := [] }
    match encoderEncode (NewErrorResponse status message) with
    | Except.ok written => ({ resp with body := written }, [])
    | Except.error err => (resp, [[(goStr "encoding", err)]])
  | GoaHandledError.unclassified message =>
    let b : GoStr := [randBytes 0, randBytes 1, randBytes 2, randBytes 3, randBytes 4, randBytes 5]
    let id := base64RawURLEncode b ++ goStr ": "
    ({ contentType := some (goStr "text/plain")
       status := some 500
       body := id ++ message },
     [[(goStr "id", id), (goStr "error", message)]])

end errorEncoder

/-- Modelled from the spec: JSON string escaping inside the serialized error
response; quotation marks and backslashes are escaped with a backslash, other
bytes of the message are emitted verbatim. -/
def jsonEscape (s : GoStr) : GoStr :=
  s.flatMap (fun c => if c = 34 ∨ c = 92 then [92, c] else [c])

/-- Decimal digits of a number, as bytes. -/
def natDecimal (n : Nat) : GoStr := goStr (toString n)

/-- Modelled from the spec: the JSON serialization of the error-response
schema, which for status 404 and message "not found" is exactly
the body given in the spec. -/
def jsonEncodeErrorResponse (er : ErrorResponse) : GoStr :=
  goStr "\x7b\"status\":" ++ natDecimal er.status ++ goStr ",\"message\":\"" ++
    jsonEscape er.message ++ goStr "\"\x7d"

/-- The `Encode` method of the JSON encoder applied to an error response:
serialization of the flat status/message record cannot fail, so it always
returns the bytes it writes. -/
def jsonEncoderEncode (er : ErrorResponse) : Except GoStr GoStr :=
  Except.ok (jsonEncodeErrorResponse er)

/-- Bytes that can occur in a media type accepted by
`checkMediaTypeDisposition`: token characters and the slash. -/
def isMediaTypeByte (c : Nat) : Bool := isTokenChar c || decide (c = 47)

theorem NewHTTPDecoder_eq_switch (h : GoStr) :
    NewHTTPDecoder h = codecSwitch (mediaTypeOrRaw h) := rfl

theorem NewHTTPEncoder_eq_switch (h : GoStr) :
    NewHTTPEncoder h = codecSwitch (mediaTypeOrRaw h) := rfl

theorem ResponseContentType_eq_switch (h : GoStr) (hne : h ≠ []) :
    ResponseContentType h = rctSwitch (mediaTypeOrRaw h) := by
  simp only [ResponseContentType, mediaTypeOrRaw, rctSwitch, if_neg hne]

theorem mediaByte_range {c : Nat} (h : isMediaTypeByte c = true) : 32 < c ∧ c < 127 := by
  simp only [isMediaTypeByte, isTokenChar, isTSpecial, Bool.or_eq_true, Bool.and_eq_true,
    Bool.not_eq_true', decide_eq_true_eq, decide_eq_false_iff_not] at h
  omega

theorem mediaByte_not_semi {c : Nat} (h : isMediaTypeByte c = true) : c ≠ 59 := by
  simp only [isMediaTypeByte, isTokenChar, isTSpecial, Bool.or_eq_true, Bool.and_eq_true,
    Bool.not_eq_true', decide_eq_true_eq, decide_eq_false_iff_not] at h
  omega

theorem lowerByte_not_upper (c : Nat) : lowerByte c < 65 ∨ 90 < lowerByte c := by
  unfold lowerByte
  split <;> omega

theorem lowerByte_fix {c : Nat} (h : c < 65 ∨ 90 < c) : lowerByte c = c := by
  unfold lowerByte
  rw [if_neg (by omega)]

theorem toLowerAux_no_upper : ∀ (fuel : Nat) (s : GoStr), s.length ≤ fuel →
    ∀ c ∈ toLowerAux fuel s, c < 65 ∨ 90 < c := by
  intro fuel
  induction fuel with
  | zero =>
    intro s hs c hc
    rw [List.length_eq_zero.mp (Nat.le_zero.mp hs)] at hc
    simp [toLowerAux] at hc
  | succ n ih =>
    intro s hs c hc
    match s with
    | [] => simp [toLowerAux] at hc
    | a :: r =>
      simp only [toLowerAux] at hc
      simp only [List.length_cons] at hs
      split at hc
      · rcases List.mem_cons.mp hc with rfl | hc
        · omega
        · exact ih _ (by have := List.length_drop 1 r; omega) c hc
      · split at hc
        · rcases List.mem_cons.mp hc with rfl | hc
          · omega
          · exact ih _ (by have := List.length_drop 2 r; omega) c hc
        · rcases List.mem_cons.mp hc with rfl | hc
          · exact lowerByte_not_upper _
          · exact ih _ (by omega) c hc

theorem toLowerStr_no_upper {s : GoStr} : ∀ c ∈ toLowerStr s, c < 65 ∨ 90 < c :=
  toLowerAux_no_upper s.length s (Nat.le_refl _)

theorem toLowerAux_fix : ∀ (fuel : Nat) (s : GoStr),
    (∀ c ∈ s, c < 128 ∧ (c < 65 ∨ 90 < c)) → toLowerAux fuel s = s := by
  intro fuel
  induction fuel with
  | zero => intro s _; rfl
  | succ n ih =>
    intro s hs
    match s with
    | [] => rfl
    | a :: r =>
      have ha := hs a (List.mem_cons_self a r)
      simp only [toLowerAux]
      rw [if_neg (by omega), if_neg (by omega), lowerByte_fix ha.2,
        ih r (fun d hd => hs d (List.mem_cons_of_mem a hd))]

theorem toLowerStr_fix {s : GoStr} (h : ∀ c ∈ s, c < 128 ∧ (c < 65 ∨ 90 < c)) :
    toLowerStr s = s :=
  toLowerAux_fix s.length s h

theorem trimLeftAux_subset : ∀ (fuel : Nat) (s : GoStr), ∀ c ∈ trimLeftAux fuel s, c ∈ s := by
  intro fuel
  induction fuel with
  | zero => intro s c hc; exact hc
  | succ n ih =>
    intro s c hc
    simp only [trimLeftAux] at hc
    split at hc
    · exact hc
    · exact List.drop_subset _ _ (ih _ c hc)

theorem trimRightRevAux_subset : ∀ (fuel : Nat) (s : GoStr),
    ∀ c ∈ trimRightRevAux fuel s, c ∈ s := by
  intro fuel
  induction fuel with
  | zero => intro s c hc; exact hc
  | succ n ih =>
    intro s c hc
    simp only [trimRightRevAux] at hc
    split at hc
    · exact hc
    · exact List.drop_subset _ _ (ih _ c hc)

theorem trimSpace_subset {s : GoStr} : ∀ c ∈ trimSpace s, c ∈ s := by
  intro c hc
  unfold trimSpace trimRightSpaceRev trimLeftSpace at hc
  rw [List.mem_reverse] at hc
  have h1 := trimRightRevAux_subset _ _ c hc
  rw [List.mem_reverse] at h1
  exact trimLeftAux_subset _ _ c h1

theorem spaceSeqLen_media {s : GoStr} (h : ∀ c ∈ s, isMediaTypeByte c = true) :
    spaceSeqLen s = 0 := by
  match s with
  | [] => rfl
  | a :: r =>
    have ha := mediaByte_range (h a (List.mem_cons_self a r))
    simp only [spaceSeqLen]
    rw [if_neg (by omega), if_neg (by omega), if_neg (by omega), if_neg (by omega),
      if_neg (by omega)]

theorem revSpaceSeqLen_media {s : GoStr} (h : ∀ c ∈ s, isMediaTypeByte c = true) :
    revSpaceSeqLen s = 0 := by
  match s with
  | [] => rfl
  | a :: r =>
    have ha := mediaByte_range (h a (List.mem_cons_self a r))
    simp only [revSpaceSeqLen]
    rw [if_neg (by omega), if_neg (by omega), if_neg (by omega), if_neg (by omega),
      if_neg (by omega)]

theorem trimLeftAux_media (fuel : Nat) {s : GoStr} (h : ∀ c ∈ s, isMediaTypeByte c = true) :
    trimLeftAux fuel s = s := by
  cases fuel with
  | zero => rfl
  | succ n => simp [trimLeftAux, spaceSeqLen_media h]

theorem trimRightRevAux_media (fuel : Nat) {s : GoStr}
    (h : ∀ c ∈ s, isMediaTypeByte c = true) : trimRightRevAux fuel s = s := by
  cases fuel with
  | zero => rfl
  | succ n => simp [trimRightRevAux, revSpaceSeqLen_media h]

theorem trimSpace_media {s : GoStr} (h : ∀ c ∈ s, isMediaTypeByte c = true) :
    trimSpace s = s := by
  unfold trimSpace trimRightSpaceRev trimLeftSpace
  rw [trimLeftAux_media _ h,
    trimRightRevAux_media _ (fun c hc => h c (List.mem_reverse.mp hc)),
    List.reverse_reverse]

theorem cutSemi_eq_self {s : GoStr} (h : ∀ c ∈ s, c ≠ 59) : cutSemi s = (s, []) := by
  induction s with
  | nil => rfl
  | cons a l ih =>
    simp only [cutSemi, if_neg (h a (List.mem_cons_self a l)),
      ih (fun c hc => h c (List.mem_cons_of_mem a hc))]

theorem disposition_mediaBytes {s : GoStr} (hd : checkMediaTypeDisposition s = true) :
    s ≠ [] ∧ ∀ c ∈ s, isMediaTypeByte c = true := by
  have hs : s.takeWhile isTokenChar ++ s.dropWhile isTokenChar = s :=
    List.takeWhile_append_dropWhile isTokenChar s
  unfold checkMediaTypeDisposition at hd
  dsimp only at hd
  split at hd
  · cases hd
  · rename_i htyp
    split at hd
    · rename_i hrest
      rw [hrest, List.append_nil] at hs
      constructor
      · intro hnil
        subst hnil
        exact htyp List.takeWhile_nil
      · intro c hc
        rw [← hs] at hc
        simp only [isMediaTypeByte, Bool.or_eq_true]
        exact Or.inl (List.mem_takeWhile_imp hc)
    · rename_i rest1 hrest
      simp only [decide_eq_true_eq] at hd
      obtain ⟨hsub, hrest2⟩ := hd
      have hr1 : rest1.takeWhile isTokenChar ++ rest1.dropWhile isTokenChar = rest1 :=
        List.takeWhile_append_dropWhile isTokenChar rest1
      rw [hrest2, List.append_nil] at hr1
      rw [hrest] at hs
      constructor
      · intro hnil
        subst hnil
        simp at hs
      · intro c hc
        rw [← hs] at hc
        rcases List.mem_append.mp hc with hc | hc
        · simp only [isMediaTypeByte, Bool.or_eq_true]
          exact Or.inl (List.mem_takeWhile_imp hc)
        · rcases List.mem_cons.mp hc with rfl | hc
          · simp [isMediaTypeByte]
          · simp only [isMediaTypeByte, Bool.or_eq_true]
            exact Or.inl (List.mem_takeWhile_imp (hr1 ▸ hc))
    · cases hd

theorem ParseMediaType_some_elim {v mt : GoStr} (h : ParseMediaType v = some mt) :
    checkMediaTypeDisposition mt = true ∧ mt = trimSpace (toLowerStr (cutSemi v).1) := by
  unfold ParseMediaType at h
  dsimp only at h
  split at h
  · split at h
    · rename_i hd hl
      obtain rfl := (Option.some.inj h).symm
      exact ⟨hd, rfl⟩
    · cases h
  · cases h

theorem parse_result_lower {v mt : GoStr} (h : ParseMediaType v = some mt) :
    toLowerStr mt = mt := by
  obtain ⟨hd, hmt⟩ := ParseMediaType_some_elim h
  obtain ⟨_, hmb⟩ := disposition_mediaBytes hd
  apply toLowerStr_fix
  intro c hc
  refine ⟨(mediaByte_range (hmb c hc)).2.trans (by omega), ?_⟩
  have hcb : c ∈ toLowerStr (cutSemi v).1 := trimSpace_subset c (hmt ▸ hc)
  exact toLowerStr_no_upper c hcb

theorem parse_result_ne_nil {v mt : GoStr} (h : ParseMediaType v = some mt) :
    mt ≠ [] :=
  (disposition_mediaBytes (ParseMediaType_some_elim h).1).1

theorem ParseMediaType_idem {v mt : GoStr} (h : ParseMediaType v = some mt) :
    ParseMediaType mt = some mt := by
  obtain ⟨hd, _⟩ := ParseMediaType_some_elim h
  obtain ⟨hne, hmb⟩ := disposition_mediaBytes hd
  have hcut : cutSemi mt = (mt, []) :=
    cutSemi_eq_self (fun c hc => mediaByte_not_semi (hmb c hc))
  have hlow : toLowerStr mt = mt := parse_result_lower h
  have htrim : trimSpace mt = mt := trimSpace_media hmb
  simp [ParseMediaType, hcut, hlow, htrim, hd]
  rfl

/-- C1: for every supported media type t in json, gob, xml, `NewHTTPDecoder`
on `Content-Type: application/t` returns the decoder backed by codec t, and
`NewHTTPEncoder` on `Accept: application/t` returns the encoder backed by
codec t. -/
theorem C1_supported_types_select_their_codec :
    NewHTTPDecoder (goStr "application/json") = Codec.json ∧
    NewHTTPDecoder (goStr "application/gob") = Codec.gob ∧
    NewHTTPDecoder (goStr "application/xml") = Codec.xml ∧
    NewHTTPEncoder (goStr "application/json") = Codec.json ∧
    NewHTTPEncoder (goStr "application/gob") = Codec.gob ∧
    NewHTTPEncoder (goStr "application/xml") = Codec.xml := by
  decide

/-- C2: every header whose effective media type (parsed media type, the raw
value on parse failure, `application/json` when absent) is not
`application/gob` or `application/xml` — in particular every unrecognized
non-empty value and the empty header — selects the JSON codec, for the
decoder and the encoder alike.  Selection is total: both functions always
return a codec, never an error. -/
theorem C2_everything_else_falls_back_to_json (h : GoStr)
    (hg : mediaTypeOrRaw h ≠ goStr "application/gob")
    (hx : mediaTypeOrRaw h ≠ goStr "application/xml") :
    NewHTTPDecoder h = Codec.json ∧ NewHTTPEncoder h = Codec.json := by
  rw [NewHTTPDecoder_eq_switch, NewHTTPEncoder_eq_switch]
  by_cases hj : mediaTypeOrRaw h = goStr "application/json"
  · constructor <;> simp [codecSwitch, hj]
  · constructor <;> simp [codecSwitch, hj, hg, hx]

/-- Witness for C2 at an unsupported value and at the absent header. -/
theorem C2_witness :
    (NewHTTPDecoder (goStr "text/html") = Codec.json ∧
      NewHTTPEncoder (goStr "text/html") = Codec.json) ∧
    (NewHTTPDecoder [] = Codec.json ∧ NewHTTPEncoder [] = Codec.json) :=
  ⟨C2_everything_else_falls_back_to_json (goStr "text/html") (by decide) (by decide),
   C2_everything_else_falls_back_to_json [] (by decide) (by decide)⟩

/-- C3: `ResponseContentType` returns the Accept header's parsed media type
iff that media type is one of the three supported types; in every other case,
the absent header included, it returns `application/json`. -/
theorem C3_response_content_type_iff (h : GoStr) :
    (h = [] → ResponseContentType h = goStr "application/json") ∧
    (h ≠ [] →
      ((ResponseContentType h = mediaTypeOrRaw h) ↔
        (mediaTypeOrRaw h = goStr "application/json" ∨
          mediaTypeOrRaw h = goStr "application/gob" ∨
          mediaTypeOrRaw h = goStr "application/xml")) ∧
      (¬(mediaTypeOrRaw h = goStr "application/json" ∨
          mediaTypeOrRaw h = goStr "application/gob" ∨
          mediaTypeOrRaw h = goStr "application/xml") →
        ResponseContentType h = goStr "application/json")) := by
  constructor
  · intro he
    subst he
    rfl
  · intro hne
    rw [ResponseContentType_eq_switch h hne]
    unfold rctSwitch
    by_cases hs : mediaTypeOrRaw h = goStr "application/json" ∨
        mediaTypeOrRaw h = goStr "application/gob" ∨
        mediaTypeOrRaw h = goStr "application/xml"
    · rw [if_pos hs]
      exact ⟨⟨fun _ => hs, fun _ => rfl⟩, fun hn => absurd hs hn⟩
    · rw [if_neg hs]
      exact ⟨⟨fun heq => absurd (Or.inl heq.symm) hs, fun hin => absurd hin hs⟩,
        fun _ => rfl⟩

/-- Witness for C3 at a supported value, at an unsupported value, and at a
supported value preceded by a no-break space (U+00A0, bytes C2 A0), which the
parser trims so that the parsed media type application/gob is returned. -/
theorem C3_witness :
    ResponseContentType (goStr "application/gob") = mediaTypeOrRaw (goStr "application/gob") ∧
    ResponseContentType (goStr "text/html") = goStr "application/json" ∧
    ResponseContentType ([194, 160] ++ goStr "application/gob") =
      mediaTypeOrRaw ([194, 160] ++ goStr "application/gob") :=
  ⟨((C3_response_content_type_iff (goStr "application/gob")).2 (by decide)).1.mpr (by decide),
   ((C3_response_content_type_iff (goStr "text/html")).2 (by decide)).2 (by decide),
   ((C3_response_content_type_iff ([194, 160] ++ goStr "application/gob")).2
      (by decide)).1.mpr (by decide)⟩

/-- C4: a header value that parses to base media type mt — in particular a
supported media type followed by parameters such as
`application/json; charset=utf-8` — is treated by all three selection
operations exactly like the bare media type mt: parameters are stripped before
the match. -/
theorem C4_parameters_are_stripped (h mt : GoStr)
    (hp : ParseMediaType h = some mt) :
    NewHTTPDecoder h = NewHTTPDecoder mt ∧
    NewHTTPEncoder h = NewHTTPEncoder mt ∧
    ResponseContentType h = ResponseContentType mt := by
  have hne : h ≠ [] := by
    rintro rfl
    rw [show ParseMediaType [] = none from rfl] at hp
    cases hp
  have hmne : mt ≠ [] := parse_result_ne_nil hp
  have hidem : ParseMediaType mt = some mt := ParseMediaType_idem hp
  have e1 : mediaTypeOrRaw h = mt := by simp [mediaTypeOrRaw, hne, hp]
  have e2 : mediaTypeOrRaw mt = mt := by simp [mediaTypeOrRaw, hmne, hidem]
  refine ⟨?_, ?_, ?_⟩
  · rw [NewHTTPDecoder_eq_switch, NewHTTPDecoder_eq_switch, e1, e2]
  · rw [NewHTTPEncoder_eq_switch, NewHTTPEncoder_eq_switch, e1, e2]
  · rw [ResponseContentType_eq_switch h hne, ResponseContentType_eq_switch mt hmne, e1, e2]

/-- Witness for C4: a supported media type with a charset parameter, once
separated by an ASCII space and once by a no-break space (U+00A0, bytes
C2 A0), which Go's parameter scanner trims as Unicode white space. -/
theorem C4_witness :
    (ParseMediaType (goStr "application/xml; charset=utf-8") = some (goStr "application/xml") ∧
      NewHTTPDecoder (goStr "application/xml; charset=utf-8") =
        NewHTTPDecoder (goStr "application/xml")) ∧
    (ParseMediaType (goStr "application/xml;" ++ [194, 160] ++ goStr "charset=utf-8") =
        some (goStr "application/xml") ∧
      NewHTTPDecoder (goStr "application/xml;" ++ [194, 160] ++ goStr "charset=utf-8") =
        NewHTTPDecoder (goStr "application/xml")) :=
  ⟨⟨by decide,
    (C4_parameters_are_stripped (goStr "application/xml; charset=utf-8")
      (goStr "application/xml") (by decide)).1⟩,
   ⟨by decide,
    (C4_parameters_are_stripped (goStr "application/xml;" ++ [194, 160] ++ goStr "charset=utf-8")
      (goStr "application/xml") (by decide)).1⟩⟩

/-- C8: when media-type parsing fails on a non-empty header, the switches
match against the raw unmodified header value; hence any unparseable value
that is not byte-equal to a supported type selects the JSON codec, and
`ResponseContentType` returns `application/json`. -/
theorem C8_unparseable_header_matches_raw (h : GoStr) (hne : h ≠ [])
    (hp : ParseMediaType h = none) :
    (NewHTTPDecoder h = codecSwitch h ∧ NewHTTPEncoder h = codecSwitch h ∧
      ResponseContentType h = rctSwitch h) ∧
    (h ≠ goStr "application/json" → h ≠ goStr "application/gob" →
      h ≠ goStr "application/xml" →
      NewHTTPDecoder h = Codec.json ∧ NewHTTPEncoder h = Codec.json ∧
      ResponseContentType h = goStr "application/json") := by
  have e : mediaTypeOrRaw h = h := by simp [mediaTypeOrRaw, hne, hp]
  refine ⟨⟨?_, ?_, ?_⟩, fun hj hg hx => ⟨?_, ?_, ?_⟩⟩
  · rw [NewHTTPDecoder_eq_switch, e]
  · rw [NewHTTPEncoder_eq_switch, e]
  · rw [ResponseContentType_eq_switch h hne, e]
  · rw [NewHTTPDecoder_eq_switch, e]
    simp [codecSwitch, hj, hg, hx]
  · rw [NewHTTPEncoder_eq_switch, e]
    simp [codecSwitch, hj, hg, hx]
  · rw [ResponseContentType_eq_switch h hne, e]
    simp [rctSwitch, hj, hg, hx]

/-- Witness for C8 at a value the media-type grammar rejects, and at a header
starting with a lone 0xA0 byte — ill-formed UTF-8, hence not white space for
Go either — so parsing fails and the raw bytes fall back to JSON. -/
theorem C8_witness :
    (NewHTTPDecoder (goStr "not a media type") = Codec.json ∧
      NewHTTPEncoder (goStr "not a media type") = Codec.json ∧
      ResponseContentType (goStr "not a media type") = goStr "application/json") ∧
    (NewHTTPDecoder ([160] ++ goStr "application/xml") = Codec.json ∧
      NewHTTPEncoder ([160] ++ goStr "application/xml") = Codec.json ∧
      ResponseContentType ([160] ++ goStr "application/xml") = goStr "application/json") :=
  ⟨(C8_unparseable_header_matches_raw (goStr "not a media type") (by decide) (by decide)).2
     (by decide) (by decide) (by decide),
   (C8_unparseable_header_matches_raw ([160] ++ goStr "application/xml") (by decide)
      (by decide)).2 (by decide) (by decide) (by decide)⟩

/-- C9: matching is case-insensitive for parseable header values, because the
parser lowercases the media type it returns before the switches compare it
with the lowercase supported strings: `Content-Type: Application/XML` selects
the XML codec, `Accept: APPLICATION/GOB` yields response content type
`application/gob`, and every parsed media type is lowercase-invariant. -/
theorem C9_case_insensitive_matching :
    NewHTTPDecoder (goStr "Application/XML") = Codec.xml ∧
    ResponseContentType (goStr "APPLICATION/GOB") = goStr "application/gob" ∧
    ∀ h mt : GoStr, ParseMediaType h = some mt → toLowerStr mt = mt :=
  ⟨by decide, by decide, fun _ _ hp => parse_result_lower hp⟩

/-- Witness for C9 at the mixed-case XML header. -/
theorem C9_witness : toLowerStr (goStr "application/xml") = goStr "application/xml" :=
  C9_case_insensitive_matching.2.2 (goStr "Application/XML") (goStr "application/xml")
    (by decide)

/-- C10: the codec `NewHTTPEncoder` chooses from the Accept header is always
exactly the codec registered under the media type `ResponseContentType`
returns for the same request. -/
theorem C10_encoder_consistent_with_response_content_type (h : GoStr) :
    ResponseContentType h = codecMediaType (NewHTTPEncoder h) := by
  by_cases hne : h = []
  · subst hne
    decide
  · rw [ResponseContentType_eq_switch h hne, NewHTTPEncoder_eq_switch]
    by_cases h1 : mediaTypeOrRaw h = goStr "application/json"
    · simp [rctSwitch, codecSwitch, codecMediaType, h1]
    · by_cases h2 : mediaTypeOrRaw h = goStr "application/gob"
      · simp only [rctSwitch, codecSwitch, codecMediaType, h1, h2]
        decide
      · by_cases h3 : mediaTypeOrRaw h = goStr "application/xml"
        · simp only [rctSwitch, codecSwitch, codecMediaType, h1, h2, h3]
          decide
        · simp [rctSwitch, codecSwitch, codecMediaType, h1, h2, h3]

theorem base64URLByte_mem (n : Nat) : base64URLByte n ∈ base64URLAlphabet := by
  unfold base64URLByte
  rcases Nat.lt_or_ge n base64URLAlphabet.length with hlt | hge
  · rw [List.getD_eq_getElem base64URLAlphabet 65 hlt]
    exact List.getElem_mem hlt
  · rw [List.getD_eq_default base64URLAlphabet 65 hge]
    decide

theorem base64_six_bytes (b0 b1 b2 b3 b4 b5 : Nat) :
    base64RawURLEncode [b0, b1, b2, b3, b4, b5] =
      [base64URLByte (b0 % 256 / 4), base64URLByte (b0 % 256 % 4 * 16 + b1 % 256 / 16),
       base64URLByte (b1 % 256 % 16 * 4 + b2 % 256 / 64), base64URLByte (b2 % 256 % 64),
       base64URLByte (b3 % 256 / 4), base64URLByte (b3 % 256 % 4 * 16 + b4 % 256 / 16),
       base64URLByte (b4 % 256 % 16 * 4 + b5 % 256 / 64), base64URLByte (b5 % 256 % 64)] :=
  rfl

theorem base64_six_bytes_mem (b0 b1 b2 b3 b4 b5 : Nat) :
    ∀ c ∈ base64RawURLEncode [b0, b1, b2, b3, b4, b5], c ∈ base64URLAlphabet := by
  intro c hc
  rw [base64_six_bytes] at hc
  simp only [List.mem_cons, List.not_mem_nil, or_false] at hc
  rcases hc with rfl | rfl | rfl | rfl | rfl | rfl | rfl | rfl <;> exact base64URLByte_mem _

/-- C5: a classified error with declared status 404 and message "not found",
encoded via the JSON encoder, writes HTTP status 404, sets the response
`Content-Type` to `application/json`, writes exactly the body
`\x7b"status":404,"message":"not found"\x7d`, and logs nothing. -/
theorem C5_classified_404_json_body :
    errorEncoder.Encode (goStr "application/json") jsonEncoderEncode (fun _ => 0)
      (GoaHandledError.classified 404 (goStr "not found")) =
    ({ contentType := some (goStr "application/json"), status := some 404,
       body := goStr "\x7b\"status\":404,\"message\":\"not found\"\x7d" }, []) := by
  decide

/-- C6: for every unclassified error with message m and every outcome of the
six random bytes, `errorEncoder.Encode` writes HTTP status 500, sets
`Content-Type` to `text/plain`, writes the body `id ++ ": " ++ m` where id is
the 8-byte URL-safe base64 encoding (without padding) of the six random
bytes, and logs the id and the message — unconditionally, the discarded
`w.Write` result notwithstanding. -/
theorem C6_unclassified_error_shape (accept : GoStr)
    (enc : ErrorResponse → Except GoStr GoStr) (rb : Fin 6 → Nat) (msg : GoStr) :
    errorEncoder.Encode accept enc rb (GoaHandledError.unclassified msg) =
      ({ contentType := some (goStr "text/plain"), status := some 500,
         body := base64RawURLEncode [rb 0, rb 1, rb 2, rb 3, rb 4, rb 5] ++
           goStr ": " ++ msg },
       [[(goStr "id", base64RawURLEncode [rb 0, rb 1, rb 2, rb 3, rb 4, rb 5] ++ goStr ": "),
         (goStr "error", msg)]]) ∧
    (base64RawURLEncode [rb 0, rb 1, rb 2, rb 3, rb 4, rb 5]).length = 8 ∧
    ∀ c ∈ base64RawURLEncode [rb 0, rb 1, rb 2, rb 3, rb 4, rb 5], c ∈ base64URLAlphabet := by
  refine ⟨?_, ?_, base64_six_bytes_mem (rb 0) (rb 1) (rb 2) (rb 3) (rb 4) (rb 5)⟩
  · simp [errorEncoder.Encode, List.append_assoc]
  · rw [base64_six_bytes]
    rfl

/-- Witness for C6 with all-zero random bytes and message "boom". -/
theorem C6_witness :
    (base64RawURLEncode [0, 0, 0, 0, 0, 0]).length = 8 ∧
    65 ∈ base64URLAlphabet :=
  ⟨(C6_unclassified_error_shape [] jsonEncoderEncode (fun _ => 0) (goStr "boom")).2.1,
   (C6_unclassified_error_shape [] jsonEncoderEncode (fun _ => 0) (goStr "boom")).2.2 65
     (by decide)⟩

/-- C7: for every classified error, if the bound encoder fails to serialize
the error-response body, `errorEncoder.Encode` logs the encoding failure and
returns; no error is propagated (the return type carries none), and the
`Content-Type` header and status already written are those of the classified
branch, unchanged. -/
theorem C7_encoding_failure_logged_not_propagated (accept : GoStr)
    (enc : ErrorResponse → Except GoStr GoStr) (rb : Fin 6 → Nat)
    (status : Nat) (message errMsg : GoStr)
    (hfail : enc (NewErrorResponse status message) = Except.error errMsg) :
    errorEncoder.Encode accept enc rb (GoaHandledError.classified status message) =
      ({ contentType := some (ResponseContentType accept),
         status := some (HTTPStatus status), body := [] },
       [[(goStr "encoding", errMsg)]]) := by
  simp [errorEncoder.Encode, hfail]

/-- Witness for C7 with an encoder that always fails. -/
theorem C7_witness :
    errorEncoder.Encode [] (fun _ => Except.error (goStr "boom")) (fun _ => 0)
      (GoaHandledError.classified 404 (goStr "not found")) =
      ({ contentType := some (ResponseContentType []), status := some (HTTPStatus 404),
         body := [] },
       [[(goStr "encoding", goStr "boom")]]) :=
  C7_encoding_failure_logged_not_propagated [] (fun _ => Except.error (goStr "boom"))
    (fun _ => 0) 404 (goStr "not found") (goStr "boom") rfl
